import Mathlib

/-!
Verification of the Form-Field Detection & Autofill Resolution Engine and its
Answer Bank (files `poc/answer_bank.py`, `poc/poc_autofill.py`, `app/ai/llm.py`).

The Python code is shallowly embedded: pure string manipulation becomes Lean
functions on `List Char` / `String`; Python `dict`s become insertion-ordered
association lists (mirroring CPython's ordered-dict semantics); fallible
operations return `Option`; the browser host and the LLM client are modelled
as oracle functions supplied as inputs.  Strings are treated at the ASCII
level: `str.lower()` is modelled by an ASCII lowercase table and the regex
classes `\w` / `\s` by their ASCII contents, which is exact on the ASCII
questions the engine manipulates.
-/

namespace Autofill

/-! ## Python string primitives (`str.lower`, `str.strip`, regex `\w`, `\s`) -/

/-- Pairs of ASCII upper/lower case letters, the case fold performed by
`str.lower()` on ASCII text. -/
def lowerPairs : List (Char × Char) :=
  [('A', 'a'), ('B', 'b'), ('C', 'c'), ('D', 'd'), ('E', 'e'), ('F', 'f'),
   ('G', 'g'), ('H', 'h'), ('I', 'i'), ('J', 'j'), ('K', 'k'), ('L', 'l'),
   ('M', 'm'), ('N', 'n'), ('O', 'o'), ('P', 'p'), ('Q', 'q'), ('R', 'r'),
   ('S', 's'), ('T', 't'), ('U', 'u'), ('V', 'v'), ('W', 'w'), ('X', 'x'),
   ('Y', 'y'), ('Z', 'z')]

/-- ASCII model of Python's per-character `str.lower()`. -/
def pyLowerChar (c : Char) : Char :=
  ((lowerPairs.find? (fun p => p.1 == c)).map Prod.snd).getD c

/-- `str.lower()` on a character list. -/
def pyLower (l : List Char) : List Char := l.map pyLowerChar

/-- Python's `\s` class (ASCII part): space, tab, newline, carriage return,
vertical tab, form feed. -/
def isPySpace (c : Char) : Bool :=
  c == ' ' || c == '\t' || c == '\n' || c == '\r' || c == '\x0b' || c == '\x0c'

/-- Python's `\w` class (ASCII part): letters, digits, underscore. -/
def isWordChar (c : Char) : Bool := c.isAlphanum || c == '_'

/-- Python `str.strip()`: drop whitespace from both ends. -/
def pyStrip (l : List Char) : List Char :=
  ((l.dropWhile isPySpace).reverse.dropWhile isPySpace).reverse

/-- `re.sub(r'[^\w\s]', ' ', q)`: replace every character that is neither a
word character nor whitespace by a single space. -/
def subNonWord (l : List Char) : List Char :=
  l.map (fun c => if !isWordChar c && !isPySpace c then ' ' else c)

/-- `re.sub(r'\s+', ' ', q)`: collapse every maximal whitespace run into one
space character. -/
def collapseWs : List Char → List Char
  | [] => []
  | [c] => if isPySpace c then [' '] else [c]
  | c1 :: c2 :: rest =>
    if isPySpace c1 && isPySpace c2 then collapseWs (c2 :: rest)
    else (if isPySpace c1 then ' ' else c1) :: collapseWs (c2 :: rest)

/-- Substring test, Python's `needle in hay`. -/
def strContains (hay needle : String) : Bool :=
  hay.data.tails.any (fun t => needle.data.isPrefixOf t)

/-- `AnswerBank.normalize_question` (`poc/answer_bank.py`): lowercase, strip,
replace non-word non-space characters by spaces, collapse whitespace runs. -/
def normalizeQuestion (q : String) : String :=
  ⟨collapseWs (subNonWord (pyStrip (pyLower q.data)))⟩

/-! ## Insertion-ordered dictionaries (CPython `dict` semantics) -/

/-- Key lookup in an insertion-ordered association list (`d[k]` / `k in d`). -/
def dictGet (d : List (String × String)) (k : String) : Option String :=
  (d.find? (fun p => p.1 == k)).map Prod.snd

/-- `d[k] = v`: overwrite in place when the key exists (position preserved),
else append at the end — CPython insertion-order semantics. -/
def dictPut (d : List (String × String)) (k : String) (v : String) :
    List (String × String) :=
  if d.any (fun p => p.1 == k) then
    d.map (fun p => if p.1 == k then (k, v) else p)
  else d ++ [(k, v)]

/-! ## The regex classification table `DROPDOWN_PATTERNS`

Every pattern in `DROPDOWN_PATTERNS` is a sequence of alternation groups of
literal words separated by `.*` (with `?` on a final letter expanded into a
two-literal alternation).  `re.search` succeeds on such a pattern iff some
literal of the first group occurs somewhere in the string and each following
group occurs after the previous one with no newline inside the gap (`.` does
not match a newline). -/

/-- Match a sequence of literal-alternation groups, each gap between groups
being `.*` (which may not cross a newline): some literal of the head group
must match at a position before the first newline, and the remaining groups
after it. -/
def matchSeq : List (List (List Char)) → List Char → Bool
  | [], _ => true
  | g :: gs, s =>
    ((List.range ((s.takeWhile (fun c => c != '\n')).length + 1)).map
        (fun i => s.drop i)).any
      (fun t => g.any (fun lit => lit.isPrefixOf t && matchSeq gs (t.drop lit.length)))

/-- `re.search(pattern, s)` for a literal-alternation-sequence pattern: the
match may start anywhere in the string (the implicit scan before the first
group crosses newlines), later groups are constrained by `.*` gaps. -/
def reSearchSeq (groups : List (List String)) (s : String) : Bool :=
  match groups.map (fun g => g.map String.data) with
  | [] => true
  | g :: gs =>
    s.data.tails.any
      (fun t => g.any (fun lit => lit.isPrefixOf t && matchSeq gs (t.drop lit.length)))

/-- `DROPDOWN_PATTERNS` (`poc/answer_bank.py`), in source (insertion) order;
each regex decomposed into its literal alternation groups. -/
def dropdownPatterns : List (List (List String) × String) :=
  [ ([["authorized", "authorization", "legally", "permit"],
      ["work", "employment"], ["us", "u.s.", "united states"]], "work_auth_us"),
    ([["require", "need"], ["sponsor", "visa"]], "requires_sponsorship"),
    ([["citizen", "citizenship"]], "citizenship"),
    ([["graduation", "graduate", "grad"], ["date", "year", "when"]], "graduation_date"),
    ([["degree", "education level"]], "degree_type"),
    ([["major", "field of study", "concentration"]], "major"),
    ([["school", "university", "college", "institution"]], "school"),
    ([["gpa", "grade point"]], "gpa"),
    ([["gender", "sex"]], "gender"),
    ([["race", "ethnic", "ethnicity"]], "ethnicity"),
    ([["veteran", "military"]], "veteran_status"),
    ([["disability", "disabled"]], "disability_status"),
    ([["pronouns", "pronoun"]], "pronouns"),
    ([["hear", "heard", "find", "found"],
      ["about", "us", "position", "job", "role"]], "referral_source"),
    ([["start", "available", "availability"], ["date", "when"]], "start_date"),
    ([["salary", "compensation", "pay"],
      ["expectation", "requirement", "desired"]], "salary_expectation"),
    ([["relocat", "willing to move"]], "willing_to_relocate"),
    ([["remote", "hybrid", "onsite", "on-site", "inperson", "in-person"]], "work_location_preference"),
    ([["years", "year"], ["experience"]], "years_experience"),
    ([["proficien", "skill level", "expertise"],
      ["programming", "coding", "language"]], "programming_proficiency") ]

/-- `AnswerBank.get_pattern_key`: scan the classification table in source
order over the lowercased question; first matching pattern's key wins. -/
def getPatternKey (question : String) : Option String :=
  ((dropdownPatterns.find?
      (fun p => reSearchSeq p.1 (⟨pyLower question.data⟩))).map Prod.snd)

/-! ## `difflib.SequenceMatcher` string similarity

`SequenceMatcher(None, a, b).ratio()` is `2*M/(|a|+|b|)` where `M` sums the
sizes of the matching blocks.  With no junk predicate (and the autojunk
popularity heuristic inert, as it is for the sub-200-character question keys
this bank compares), `find_longest_match` returns the longest common block,
tie-broken towards the smallest start in `a`, then the smallest start in `b`;
`get_matching_blocks` recurses on the pieces left and right of it. -/

/-- Length of the common prefix of two suffixes. -/
def lcext : List Char → List Char → Nat
  | x :: xs, y :: ys => if x == y then lcext xs ys + 1 else 0
  | _, _ => 0

/-- Size of the matching block of `a`/`b` starting at `(i, j)`, cropped to
the sub-ranges ending at `ahi`/`bhi`. -/
def blockSize (a b : List Char) (ahi bhi i j : Nat) : Nat :=
  min (lcext (a.drop i) (b.drop j)) (min (ahi - i) (bhi - j))

/-- `find_longest_match` on `a[alo:ahi]` / `b[blo:bhi]`: the block with the
largest size, ties towards the smallest `i`, then the smallest `j`; size 0
(at `(alo, blo)`) when there is no common block. -/
def findLongestMatch (a b : List Char) (alo ahi blo bhi : Nat) :
    Nat × Nat × Nat :=
  ((List.range' alo (ahi - alo)).flatMap
      (fun i => (List.range' blo (bhi - blo)).map (fun j => (i, j)))).foldl
    (fun best ij =>
      let k := blockSize a b ahi bhi ij.1 ij.2
      if k > best.2.2 then (ij.1, ij.2, k) else best)
    (alo, blo, 0)

/-- Total size of the matching blocks of `a[alo:ahi]` / `b[blo:bhi]`
(`get_matching_blocks`, summed).  Structured with fuel so that the kernel can
evaluate it; every top-level call supplies fuel exceeding the recursion
depth, which shrinks the combined span by at least one per level. -/
def matchSum (fuel : Nat) (a b : List Char) (alo ahi blo bhi : Nat) : Nat :=
  match fuel with
  | 0 => 0
  | fuel + 1 =>
    let (i, j, k) := findLongestMatch a b alo ahi blo bhi
    if k == 0 then 0
    else matchSum fuel a b alo i blo j + k + matchSum fuel a b (i + k) ahi (j + k) bhi

/-- `SequenceMatcher(None, a, b).ratio()` as a rational:
`2*M / (|a| + |b|)`, built with `mkRat` so that the kernel can evaluate it. -/
def simScore (a b : List Char) : ℚ :=
  mkRat (2 * matchSum (a.length + b.length + 1) a b 0 a.length 0 b.length)
    (a.length + b.length)

/-- The 0.7 minimum-similarity floor of the fuzzy layer. -/
def simFloor : ℚ := mkRat 7 10

/-! ## The Answer Bank (`poc/answer_bank.py`) -/

/-- The persistent answer store: three layers, all insertion-ordered dicts.
`custom` maps a lowercased company name to its own question dict. -/
structure Bank where
  exact : List (String × String)
  patterns : List (String × String)
  custom : List (String × List (String × String))
deriving DecidableEq, Repr

/-- The fresh store created when no answers file exists. -/
def emptyBank : Bank := ⟨[], [], []⟩

/-- The fuzzy-match loop at the end of `AnswerBank.get_answer`: iterate over
the `exact` layer in insertion order; keep the answer with the highest
similarity ratio to the normalized question, starting from the 0.7 floor and
replacing only on a strict improvement. -/
def fuzzyLookup (exact : List (String × String)) (normalized : String) :
    Option String :=
  (exact.foldl
      (fun best p =>
        let r := simScore normalized.data p.1.data
        if r > best.1 then (r, some p.2) else best)
      (simFloor, none)).2

/-- Python truthiness of an optional string: `None` and `""` are falsy. -/
def truthy : Option String → Bool
  | none => false
  | some s => s != ""

/-- The company-scoped custom layer of `get_answer`: consulted only when a
(truthy) company is given, under the lowercased company key. -/
def customLookup (bank : Bank) (normalized : String) (company : Option String) :
    Option String :=
  match company with
  | some c =>
    if c != "" then
      match (bank.custom.find? (fun p => p.1 == (⟨pyLower c.data⟩ : String))).map Prod.snd with
      | some m => dictGet m normalized
      | none => none
    else none
  | none => none

/-- `AnswerBank.get_answer`, state-passing transcription: each layer only
reads the store, and the bank handed back is the input bank on every path.
Layers in order: exact normalized match, pattern-key match, company-scoped
custom match (only when a company is given), fuzzy match over the exact
layer. -/
def getAnswerS (bank : Bank) (question : String) (company : Option String) :
    Option String × Bank :=
  let normalized := normalizeQuestion question
  match dictGet bank.exact normalized with
  | some a => (some a, bank)
  | none =>
    match (getPatternKey question).bind (fun pk => dictGet bank.patterns pk) with
    | some a => (some a, bank)
    | none =>
      match customLookup bank normalized company with
      | some a => (some a, bank)
      | none => (fuzzyLookup bank.exact normalized, bank)

/-- `AnswerBank.get_answer` (result only). -/
def getAnswer (bank : Bank) (question : String) (company : Option String) :
    Option String :=
  (getAnswerS bank question company).1

/-- `AnswerBank.store_answer`: pattern answers go to the `patterns` layer
(dropped when the question classifies to no pattern key), company answers to
that company's `custom` dict, everything else to the `exact` layer; the store
is saved to disk before returning (persistence is outside this model). -/
def storeAnswer (bank : Bank) (question : String) (answer : String)
    (company : Option String) (isPattern : Bool) : Bank :=
  let normalized := normalizeQuestion question
  if isPattern then
    match getPatternKey question with
    | some pk => { bank with patterns := dictPut bank.patterns pk answer }
    | none => bank
  else
    match company with
    | some c =>
      if c != "" then
        let ck : String := ⟨pyLower c.data⟩
        let cur := ((bank.custom.find? (fun p => p.1 == ck)).map Prod.snd).getD []
        let updated := dictPut cur normalized answer
        { bank with custom :=
            if bank.custom.any (fun p => p.1 == ck) then
              bank.custom.map (fun p => if p.1 == ck then (ck, updated) else p)
            else bank.custom ++ [(ck, updated)] }
      else { bank with exact := dictPut bank.exact normalized answer }
    | none => { bank with exact := dictPut bank.exact normalized answer }

/-! ## Form data model (`poc/poc_autofill.py`) -/

/-- `FieldType` enum. -/
inductive FieldType where
  | text | email | phone | url | file | select | textarea | checkbox | radio | unknown
deriving DecidableEq, Repr

/-- The slice of `FormField` the resolver and fill loop read: detected type,
human label, raw form name.  (Selector, iframe context and the mutable
outcome slots are tracked separately by the fill-loop model.) -/
structure Field where
  fieldType : FieldType
  label : String
  name : String
deriving DecidableEq, Repr

/-- `ApplicantProfile`: the profile fields the resolver reads. -/
structure Profile where
  firstName : String
  lastName : String
  fullName : String
  email : String
  phone : String
  linkedin : String
  github : String
  website : String
  resumePath : String
  coverLetter : String
deriving DecidableEq, Repr

/-! ## Selector synthesis (`AutofillEngine._build_selector`) -/

/-- The element attributes `_build_selector` consults.  `attrs` is the
element's attribute list in document order (source of the data-attribute
scan); absent attributes are empty strings, matching the falsy checks in the
code; `structPath` is the ancestor-walk path computed in the browser (a pure
input here), empty when the walk produces nothing. -/
structure DomElement where
  attrs : List (String × String)
  ariaLabel : String
  placeholder : String
  autocomplete : String
  structPath : String
deriving DecidableEq, Repr

/-- `str.replace('"', '\\"')` used to escape quotes in attribute selectors. -/
def escapeQuotes (s : String) : String :=
  ⟨s.data.flatMap (fun c => if c == '"' then ['\\', '"'] else [c])⟩

/-- `s.startswith(pre)` on the character lists (kernel-evaluable form of
`String.startsWith`). -/
def strStarts (s pre : String) : Bool := pre.data.isPrefixOf s.data

/-- The element's non-empty `data-` attributes, in document order (the
attribute dict built by the evaluate-script in strategy 3). -/
def dataAttrsOf (el : DomElement) : List (String × String) :=
  el.attrs.filter (fun p => strStarts p.1 "data-" && p.2 != "")

/-- The preference scan over the collected data attributes: the first of
`data-automation-id`, `data-testid`, `data-field`, `data-qa` that is
present. -/
def preferredDataAttr (el : DomElement) : Option (String × String) :=
  (["data-automation-id", "data-testid", "data-field", "data-qa"].filterMap
      (fun n => ((dataAttrsOf el).find? (fun p => p.1 == n)))).head?

/-- `AutofillEngine._build_selector`: id, then name, then a preferred or
arbitrary `data-` attribute, then `aria-label`, then placeholder, then a
non-default autocomplete value, then the structural ancestor path, else the
empty string. -/
def buildSelector (el : DomElement) (idAttr nameAttr placeholder tagName : String) :
    String :=
  if idAttr != "" then "#" ++ idAttr
  else if nameAttr != "" then "[name=\"" ++ nameAttr ++ "\"]"
  else
    match preferredDataAttr el with
    | some p => "[" ++ p.1 ++ "=\"" ++ p.2 ++ "\"]"
    | none =>
      match (dataAttrsOf el).head? with
      | some p => "[" ++ p.1 ++ "=\"" ++ p.2 ++ "\"]"
      | none =>
        if el.ariaLabel != "" then
          "[aria-label=\"" ++ escapeQuotes el.ariaLabel ++ "\"]"
        else if placeholder != "" then
          "[placeholder=\"" ++ escapeQuotes placeholder ++ "\"]"
        else if el.autocomplete != "" && el.autocomplete != "off" && el.autocomplete != "on" then
          tagName ++ "[autocomplete=\"" ++ el.autocomplete ++ "\"]"
        else el.structPath

/-! ## Value resolution (`AutofillEngine._get_value_for_field`) -/

/-- Everything the resolver consults besides the field itself: the profile,
the answer bank, the company set for this run, the LLM collaborator (two
oracles plus availability), the cached resume text, and the option texts of
the field's dropdown element (read from the page for select fields). -/
structure ResolverCtx where
  profile : Profile
  bank : Bank
  company : Option String
  llmAvailable : Bool
  llmContextMatch : String → Bank → Option String
  llmGenerate : String → String → List String → Option String
  resumeText : String
  selectOptionTexts : List String

/-- The shared fallback tail of `_get_value_for_field`: answer bank, then the
LLM semantic match over the bank, then LLM generation from the resume
(options passed along for select fields), else `none`. -/
def resolveFallback (ctx : ResolverCtx) (f : Field) : Option String :=
  let stored := getAnswer ctx.bank f.label ctx.company
  if truthy stored then stored
  else
    let context :=
      if ctx.llmAvailable then ctx.llmContextMatch f.label ctx.bank else none
    if ctx.llmAvailable && truthy context then context
    else if ctx.llmAvailable && ctx.resumeText != "" then
      let options := if f.fieldType == FieldType.select then ctx.selectOptionTexts else []
      let generated := ctx.llmGenerate f.label ctx.resumeText options
      if truthy generated then generated else none
    else none

/-- `AutofillEngine._get_value_for_field`: the `elif` cascade over the
combined lowercased label+name haystack, falling through to
`resolveFallback` for fields no branch decides. -/
def getValueForField (ctx : ResolverCtx) (f : Field) : Option String :=
  let combined : String :=
    ⟨pyLower f.label.data⟩ ++ " " ++ ⟨pyLower f.name.data⟩
  if strContains combined "first" || strContains combined "fname" then
    some ctx.profile.firstName
  else if strContains combined "last" || strContains combined "lname" then
    some ctx.profile.lastName
  else if strContains combined "full" && strContains combined "name" then
    some ctx.profile.fullName
  else if f.fieldType == FieldType.email || strContains combined "email" then
    some ctx.profile.email
  else if f.fieldType == FieldType.phone || strContains combined "phone" then
    some ctx.profile.phone
  else if strContains combined "linkedin" then
    some ctx.profile.linkedin
  else if strContains combined "github" then
    some ctx.profile.github
  else if (strContains combined "website" || strContains combined "portfolio" ||
      strContains combined "personal") && combined.length < 20 then
    some ctx.profile.website
  else if f.fieldType == FieldType.file then
    if ctx.profile.resumePath != "" then some ctx.profile.resumePath else none
  else if f.fieldType == FieldType.textarea then
    if strContains combined "cover" || strContains combined "letter" ||
        strContains combined "why" || strContains combined "interest" then
      some ctx.profile.coverLetter
    else resolveFallback ctx f
  else if f.fieldType == FieldType.select then
    let stored := getAnswer ctx.bank f.label ctx.company
    if truthy stored then stored else resolveFallback ctx f
  else resolveFallback ctx f

/-! ## Fill executor (`AutofillEngine._fill_field`, select and checkbox arms) -/

/-- One `<option>`: its DOM value and its visible text. -/
structure SelectOption where
  value : String
  text : String
deriving DecidableEq, Repr

/-- The fallback predicate of the select arm: the lowercased fill value is a
substring of the option's lowercased text or of its lowercased value. -/
def optionMatches (value : String) (o : SelectOption) : Bool :=
  strContains (⟨pyLower o.text.data⟩ : String) (⟨pyLower value.data⟩ : String) ||
  strContains (⟨pyLower o.value.data⟩ : String) (⟨pyLower value.data⟩ : String)

/-- The select arm of `_fill_field` as a transition on the control's selected
value: try `select_option(value)` (exact value match — raises when no option
carries that value), on failure scan the options in order for the first
`optionMatches` hit and select it; if nothing matches, report failure and
leave the selection alone.  Returns (success, new selection). -/
def selectFill (options : List SelectOption) (current : Option String)
    (value : String) : Bool × Option String :=
  if options.any (fun o => o.value == value) then (true, some value)
  else
    match options.find? (optionMatches value) with
    | some o => (true, some o.value)
    | none => (false, current)

/-- The checkbox arm of `_fill_field` as a transition on the checked state:
`element.check()` only when not already checked.  Returns
(new state, whether a check action was performed). -/
def checkboxFill (checked : Bool) : Bool × Bool :=
  if !checked then (true, true) else (checked, false)

/-! ## The fill loop (`AutofillEngine.fill_form`) -/

/-- Per-field outcome of the fill loop. -/
inductive Outcome where
  | filledOk | failed | skipped
deriving DecidableEq, Repr

/-- The loop's collaborators: the resolver (closed over the engine context),
whether interactive escalation is enabled, whether the field's element can be
re-located, the operator's escalation reply, and the page-level success of an
attempted `_fill_field`. -/
structure LoopCtx where
  resolve : Field → Option String
  interactive : Bool
  elementFound : Field → Bool
  askUser : Field → Option String
  fillOk : Field → String → Bool

/-- One iteration of the `fill_form` loop body: resolve, optionally escalate
when the value is falsy and the run is interactive, then either attempt the
fill (recording the write) or skip.  Returns the outcome together with the
values written to the page for this field. -/
def processField (ctx : LoopCtx) (f : Field) : Outcome × List String :=
  let value0 := ctx.resolve f
  let value :=
    if !truthy value0 && ctx.interactive && ctx.elementFound f then ctx.askUser f
    else value0
  if truthy value then
    let v := value.getD ""
    if ctx.fillOk f v then (Outcome.filledOk, [v]) else (Outcome.failed, [v])
  else (Outcome.skipped, [])

/-- Aggregate of one `fill_form` pass over the detected fields: the counts,
the computed success rate, the unfilled (skipped) fields collected into
`self.unfilled_fields`, the per-field `filled` flags in field order, and
every (field, value) write attempted against the page. -/
structure FillSummary where
  filledCount : Nat
  failedCount : Nat
  skippedCount : Nat
  successRate : ℚ
  unfilled : List Field
  filledFlags : List Bool
  writes : List (Field × String)
deriving Repr

/-- `AutofillEngine.fill_form`, field loop and bookkeeping. -/
def fillFormRun (ctx : LoopCtx) (fields : List Field) : FillSummary :=
  let outcomes := fields.map (fun f => (f, processField ctx f))
  let filled := (outcomes.filter (fun p => p.2.1 == Outcome.filledOk)).length
  { filledCount := filled
    failedCount := (outcomes.filter (fun p => p.2.1 == Outcome.failed)).length
    skippedCount := (outcomes.filter (fun p => p.2.1 == Outcome.skipped)).length
    successRate := if fields.length == 0 then 0 else mkRat filled fields.length
    unfilled := (outcomes.filter (fun p => p.2.1 == Outcome.skipped)).map Prod.fst
    filledFlags := outcomes.map (fun p => p.2.1 == Outcome.filledOk)
    writes := outcomes.flatMap (fun p => p.2.2.map (fun v => (p.1, v))) }

/-! ## Operator escalation (`AutofillEngine._ask_user_for_field`) -/

/-- The dropdown arm of `_ask_user_for_field` for a valid numbered choice:
store the chosen option's value in the answer bank (scoped to the current
company), then return it for the current fill.  An out-of-range choice stands
for the operator skipping.  Returns (updated bank, value handed back). -/
def askUserSelect (bank : Bank) (label : String) (company : Option String)
    (options : List SelectOption) (choice : Nat) : Bank × Option String :=
  match options[choice]? with
  | some o => (storeAnswer bank label o.value company false, some o.value)
  | none => (bank, none)

/-- The free-text arm of `_ask_user_for_field`: strip the reply, treat `s` as
skip, store a non-empty answer in the bank (scoped to the current company) —
and then fall through to the function-level `return None`, so the typed
answer is never handed back to the current fill. -/
def askUserText (bank : Bank) (label : String) (company : Option String)
    (reply : String) : Bank × Option String :=
  let answer : String := ⟨pyStrip reply.data⟩
  if (⟨pyLower answer.data⟩ : String) == "s" then (bank, none)
  else if answer != "" then (storeAnswer bank label answer company false, none)
  else (bank, none)

/-! ## The resolver as an ordered chain of fallible strategies

A second description of value resolution, written from the spec's layered
wording (§4.2 / §9): an ordered list of strategies, composed left to right,
each either passing to the next (`none`) or stopping the chain with a final
result (`some r`, where `r` may itself be "no value").  Comparing it with the
transcription `getValueForField` settles how faithfully the code implements
the layer ordering. -/

/-- Left-to-right short-circuit composition of strategies. -/
def chainLayers : List (Option (Option String)) → Option String
  | [] => none
  | none :: rest => chainLayers rest
  | some r :: _ => r

/-- Strategy 1, direct profile mapping: the fixed substring triggers over the
combined lowercased label+name haystack, in source order; email and phone
also trigger on the declared field type; a file field maps to the resume path
(stopping with no value when none is configured); a cover-letter textarea
maps to the cover-letter snippet.  A trigger match stops the chain even when
the mapped profile value is empty. -/
def profileLayer (ctx : ResolverCtx) (f : Field) : Option (Option String) :=
  let combined : String :=
    ⟨pyLower f.label.data⟩ ++ " " ++ ⟨pyLower f.name.data⟩
  if strContains combined "first" || strContains combined "fname" then
    some (some ctx.profile.firstName)
  else if strContains combined "last" || strContains combined "lname" then
    some (some ctx.profile.lastName)
  else if strContains combined "full" && strContains combined "name" then
    some (some ctx.profile.fullName)
  else if f.fieldType == FieldType.email || strContains combined "email" then
    some (some ctx.profile.email)
  else if f.fieldType == FieldType.phone || strContains combined "phone" then
    some (some ctx.profile.phone)
  else if strContains combined "linkedin" then
    some (some ctx.profile.linkedin)
  else if strContains combined "github" then
    some (some ctx.profile.github)
  else if (strContains combined "website" || strContains combined "portfolio" ||
      strContains combined "personal") && combined.length < 20 then
    some (some ctx.profile.website)
  else if f.fieldType == FieldType.file then
    some (if ctx.profile.resumePath != "" then some ctx.profile.resumePath else none)
  else if f.fieldType == FieldType.textarea then
    if strContains combined "cover" || strContains combined "letter" ||
        strContains combined "why" || strContains combined "interest" then
      some (some ctx.profile.coverLetter)
    else none
  else none

/-- Strategy 2, the select-field shortcut: for dropdowns, a truthy Answer
Bank hit stops the chain. -/
def selectBankLayer (ctx : ResolverCtx) (f : Field) : Option (Option String) :=
  if f.fieldType == FieldType.select then
    let stored := getAnswer ctx.bank f.label ctx.company
    if truthy stored then some stored else none
  else none

/-- Strategy 3, the general Answer Bank lookup. -/
def bankLayer (ctx : ResolverCtx) (f : Field) : Option (Option String) :=
  let stored := getAnswer ctx.bank f.label ctx.company
  if truthy stored then some stored else none

/-- Strategy 4, the LLM semantic match against the existing bank. -/
def contextLayer (ctx : ResolverCtx) (f : Field) : Option (Option String) :=
  if ctx.llmAvailable && truthy (ctx.llmContextMatch f.label ctx.bank) then
    some (ctx.llmContextMatch f.label ctx.bank)
  else none

/-- Strategy 5, LLM generation from the resume; the option texts are passed
along for select fields.  When the LLM runs but generates nothing usable the
chain ends with no value. -/
def genLayer (ctx : ResolverCtx) (f : Field) : Option (Option String) :=
  if ctx.llmAvailable && ctx.resumeText != "" then
    let options := if f.fieldType == FieldType.select then ctx.selectOptionTexts else []
    let generated := ctx.llmGenerate f.label ctx.resumeText options
    some (if truthy generated then generated else none)
  else none

/-- The layered resolver of the spec: profile mapping, select-field bank
shortcut, general bank lookup, LLM semantic match, LLM generation, else
unknown. -/
def resolveLayered (ctx : ResolverCtx) (f : Field) : Option String :=
  chainLayers
    [profileLayer ctx f, selectBankLayer ctx f, bankLayer ctx f,
     contextLayer ctx f, genLayer ctx f]

/-! ## Lemmas about normalization -/

/-- `pyStrip` on strings, for stating the repaired idempotence law. -/
def pyStripStr (s : String) : String := ⟨pyStrip s.data⟩

/-- `str.lower` on strings. -/
def pyLowerStr (s : String) : String := ⟨pyLower s.data⟩

lemma pyLowerChar_idem (c : Char) : pyLowerChar (pyLowerChar c) = pyLowerChar c := by
  unfold pyLowerChar
  cases hf : lowerPairs.find? (fun p => p.1 == c) with
  | none => simp [hf]
  | some p =>
    have hmem : p ∈ lowerPairs := List.mem_of_find?_eq_some hf
    have hnone : ∀ q ∈ lowerPairs, lowerPairs.find? (fun r => r.1 == q.2) = none := by decide
    simp [hf, hnone p hmem]

lemma mem_pyLower {c : Char} {l : List Char} (h : c ∈ pyLower l) :
    pyLowerChar c = c := by
  obtain ⟨c0, _, rfl⟩ := List.mem_map.mp h
  exact pyLowerChar_idem c0

lemma mem_pyStrip {c : Char} {l : List Char} (h : c ∈ pyStrip l) : c ∈ l := by
  unfold pyStrip at h
  rw [List.mem_reverse] at h
  have h2 := List.dropWhile_subset (l := (l.dropWhile isPySpace).reverse) isPySpace h
  rw [List.mem_reverse] at h2
  exact List.dropWhile_subset isPySpace h2

lemma mem_subNonWord {c : Char} {l : List Char} (h : c ∈ subNonWord l) :
    c = ' ' ∨ c ∈ l := by
  obtain ⟨c0, hc0, rfl⟩ := List.mem_map.mp h
  by_cases hw : (!isWordChar c0 && !isPySpace c0) = true
  · left; simp [hw]
  · right; simpa [hw] using hc0

lemma subNonWord_wordOrSpace {c : Char} {l : List Char} (h : c ∈ subNonWord l) :
    isWordChar c = true ∨ isPySpace c = true := by
  obtain ⟨c0, _, rfl⟩ := List.mem_map.mp h
  by_cases hw : (!isWordChar c0 && !isPySpace c0) = true
  · right; rw [if_pos hw]; decide
  · rw [if_neg hw]
    cases hw2 : isWordChar c0 with
    | true => left; rfl
    | false =>
      cases hs2 : isPySpace c0 with
      | true => right; rfl
      | false => exact absurd (by simp [hw2, hs2]) hw

lemma mem_collapseWs {c : Char} :
    ∀ {l : List Char}, c ∈ collapseWs l → c = ' ' ∨ (c ∈ l ∧ isPySpace c = false) := by
  intro l
  induction l using collapseWs.induct with
  | case1 => intro h; cases h
  | case2 c1 hs =>
    intro h
    simp only [collapseWs, if_pos hs, List.mem_singleton] at h
    left; exact h
  | case3 c1 hs =>
    intro h
    simp only [collapseWs, if_neg hs, List.mem_singleton] at h
    right; subst h
    exact ⟨List.mem_singleton_self _, by simpa using hs⟩
  | case4 c1 c2 rest hcond ih =>
    intro h
    simp only [collapseWs, if_pos hcond] at h
    rcases ih h with h1 | ⟨h2, h3⟩
    · left; exact h1
    · right; exact ⟨List.mem_cons_of_mem _ h2, h3⟩
  | case5 c1 c2 rest hcond ih =>
    intro h
    simp only [collapseWs, if_neg hcond] at h
    rcases List.mem_cons.mp h with h1 | h1
    · by_cases hs : isPySpace c1 = true
      · left; simpa [hs] using h1
      · right; rw [if_neg hs] at h1; subst h1
        exact ⟨List.mem_cons_self _ _, by simpa using hs⟩
    · rcases ih h1 with h2 | ⟨h2, h3⟩
      · left; exact h2
      · right; exact ⟨List.mem_cons_of_mem _ h2, h3⟩

lemma collapseWs_space_eq {c : Char} {l : List Char} (h : c ∈ collapseWs l)
    (hs : isPySpace c = true) : c = ' ' := by
  rcases mem_collapseWs h with h1 | ⟨_, h2⟩
  · exact h1
  · rw [hs] at h2; cases h2

/-- Adjacent characters of a whitespace-collapsed list are never both
whitespace. -/
def noDouble (l : List Char) : Prop :=
  l.Chain' (fun a b => ¬(isPySpace a = true ∧ isPySpace b = true))

lemma collapseWs_cons_nonspace {c : Char} {rest : List Char}
    (h : isPySpace c = false) : collapseWs (c :: rest) = c :: collapseWs rest := by
  cases rest with
  | nil => simp [collapseWs, h]
  | cons c2 r => simp [collapseWs, h]

lemma collapseWs_head_space :
    ∀ (rest : List Char) (c : Char), isPySpace c = true →
      ∃ t, collapseWs (c :: rest) = ' ' :: t := by
  intro rest
  induction rest with
  | nil => intro c hc; exact ⟨[], by simp [collapseWs, hc]⟩
  | cons c2 r ih =>
    intro c hc
    by_cases h2 : isPySpace c2 = true
    · obtain ⟨t, ht⟩ := ih c2 h2
      refine ⟨t, ?_⟩
      simp only [collapseWs, hc, h2, if_pos (And.intro hc h2)]
      simpa [hc, h2] using ht
    · refine ⟨collapseWs (c2 :: r), ?_⟩
      simp [collapseWs, hc, h2]

lemma noDouble_collapseWs : ∀ (l : List Char), noDouble (collapseWs l) := by
  intro l
  induction l using collapseWs.induct with
  | case1 => exact List.chain'_nil
  | case2 c1 hs =>
    simp only [collapseWs, if_pos hs]
    exact List.chain'_singleton _
  | case3 c1 hs =>
    simp only [collapseWs, if_neg hs]
    exact List.chain'_singleton _
  | case4 c1 c2 rest hcond ih =>
    simp only [collapseWs, if_pos hcond]
    exact ih
  | case5 c1 c2 rest hcond ih =>
    simp only [collapseWs, if_neg hcond]
    have hns : isPySpace c1 = true → isPySpace c2 = false := by
      intro h1
      cases h2 : isPySpace c2
      · rfl
      · exact absurd (by simp [h1, h2]) hcond
    by_cases h1 : isPySpace c1 = true
    · have h2 := hns h1
      rw [if_pos h1, collapseWs_cons_nonspace h2]
      rw [collapseWs_cons_nonspace h2] at ih
      exact List.chain'_cons.mpr ⟨by simp [h2], ih⟩
    · rw [if_neg h1]
      by_cases h2 : isPySpace c2 = true
      · obtain ⟨t, ht⟩ := collapseWs_head_space rest c2 h2
        rw [ht]; rw [ht] at ih
        exact List.chain'_cons.mpr ⟨by simp [h1], ih⟩
      · have h2f : isPySpace c2 = false := by simpa using h2
        rw [collapseWs_cons_nonspace h2f]
        rw [collapseWs_cons_nonspace h2f] at ih
        exact List.chain'_cons.mpr ⟨by simp [h1], ih⟩

lemma noDouble_reverse {l : List Char} (h : noDouble l) : noDouble l.reverse := by
  unfold noDouble at *
  rw [List.chain'_reverse]
  have hfl : (flip fun a b => ¬(isPySpace a = true ∧ isPySpace b = true)) =
      (fun a b : Char => ¬(isPySpace a = true ∧ isPySpace b = true)) := by
    funext a b
    exact propext ⟨fun hf hc => hf ⟨hc.2, hc.1⟩, fun hf hc => hf ⟨hc.2, hc.1⟩⟩
  rw [hfl]
  exact h

lemma noDouble_pyStrip {l : List Char} (h : noDouble l) : noDouble (pyStrip l) := by
  unfold pyStrip
  apply noDouble_reverse
  apply List.Chain'.suffix _ (List.dropWhile_suffix isPySpace)
  apply noDouble_reverse
  exact List.Chain'.suffix h (List.dropWhile_suffix isPySpace)

lemma collapseWs_fix :
    ∀ (l : List Char), (∀ c ∈ l, isPySpace c = true → c = ' ') → noDouble l →
      collapseWs l = l := by
  intro l
  induction l using collapseWs.induct with
  | case1 => intro _ _; rfl
  | case2 c1 hs =>
    intro hsp _
    simp only [collapseWs, if_pos hs]
    rw [hsp c1 (List.mem_singleton_self _) hs]
  | case3 c1 hs =>
    intro _ _
    simp only [collapseWs, if_neg hs]
  | case4 c1 c2 rest hcond ih =>
    intro hsp hnd
    have h12 := (List.chain'_cons.mp hnd).1
    rw [Bool.and_eq_true] at hcond
    exact absurd hcond h12
  | case5 c1 c2 rest hcond ih =>
    intro hsp hnd
    simp only [collapseWs, if_neg hcond]
    have htail := (List.chain'_cons.mp hnd).2
    have hrest : ∀ c ∈ c2 :: rest, isPySpace c = true → c = ' ' :=
      fun c hc => hsp c (List.mem_cons_of_mem _ hc)
    rw [ih hrest htail]
    by_cases h1 : isPySpace c1 = true
    · rw [if_pos h1, hsp c1 (List.mem_cons_self _ _) h1]
    · rw [if_neg h1]

lemma subNonWord_fix {l : List Char}
    (h : ∀ c ∈ l, isWordChar c = true ∨ c = ' ') : subNonWord l = l := by
  unfold subNonWord
  have hcong : ∀ c ∈ l,
      (if (!isWordChar c && !isPySpace c) = true then ' ' else c) = id c := by
    intro c hc
    rcases h c hc with hw | hsp
    · simp [hw]
    · subst hsp; simp [isPySpace]
  rw [List.map_congr_left hcong, List.map_id]

lemma pyLower_fix {l : List Char} (h : ∀ c ∈ l, pyLowerChar c = c) :
    pyLower l = l := by
  unfold pyLower
  have hcong : ∀ c ∈ l, pyLowerChar c = id c := h
  rw [List.map_congr_left hcong, List.map_id]

lemma word_not_space {c : Char} (h : isWordChar c = true) : isPySpace c = false := by
  cases hs : isPySpace c with
  | false => rfl
  | true =>
    unfold isPySpace at hs
    simp only [Bool.or_eq_true, beq_iff_eq] at hs
    rcases hs with ((((rfl | rfl) | rfl) | rfl) | rfl) | rfl <;> exact absurd h (by decide)

lemma normalizeQuestion_chars {q : String} :
    ∀ c ∈ (normalizeQuestion q).data,
      pyLowerChar c = c ∧ (isWordChar c = true ∨ c = ' ') := by
  intro c hc
  have hc' : c ∈ collapseWs (subNonWord (pyStrip (pyLower q.data))) := hc
  constructor
  · rcases mem_collapseWs hc' with h1 | ⟨h2, _⟩
    · subst h1; decide
    · rcases mem_subNonWord h2 with h3 | h3
      · subst h3; decide
      · exact mem_pyLower (mem_pyStrip h3)
  · rcases mem_collapseWs hc' with h1 | ⟨h2, hns⟩
    · right; exact h1
    · rcases subNonWord_wordOrSpace h2 with h3 | h3
      · left; exact h3
      · rw [hns] at h3; cases h3

/-- The character-list computation behind `normalizeQuestion`. -/
lemma normalizeQuestion_data (q : String) :
    (normalizeQuestion q).data = collapseWs (subNonWord (pyStrip (pyLower q.data))) := rfl

lemma normalizeQuestion_second_pass (q : String) :
    normalizeQuestion (normalizeQuestion q) = pyStripStr (normalizeQuestion q) := by
  have hchars := normalizeQuestion_chars (q := q)
  have hnd : noDouble (normalizeQuestion q).data := noDouble_collapseWs _
  apply congrArg String.mk
  show collapseWs (subNonWord (pyStrip (pyLower (normalizeQuestion q).data))) =
    pyStrip (normalizeQuestion q).data
  generalize hg : (normalizeQuestion q).data = n at hchars hnd
  have hlow : pyLower n = n := pyLower_fix (fun c hc => (hchars c hc).1)
  rw [hlow]
  have hsub : subNonWord (pyStrip n) = pyStrip n :=
    subNonWord_fix (fun c hc => (hchars c (mem_pyStrip hc)).2)
  rw [hsub]
  apply collapseWs_fix
  · intro c hc hs
    rcases (hchars c (mem_pyStrip hc)).2 with hw | hsp
    · rw [word_not_space hw] at hs; cases hs
    · exact hsp
  · exact noDouble_pyStrip hnd

lemma normalizeQuestion_lower (q : String) :
    normalizeQuestion (pyLowerStr q) = normalizeQuestion q := by
  apply congrArg String.mk
  show collapseWs (subNonWord (pyStrip (pyLower (pyLower q.data)))) =
    collapseWs (subNonWord (pyStrip (pyLower q.data)))
  rw [pyLower_fix (fun c hc => mem_pyLower hc)]

/-! ## Lemmas about the resolver chain -/

lemma resolveFallback_eq (ctx : ResolverCtx) (f : Field) :
    resolveFallback ctx f =
      chainLayers [bankLayer ctx f, contextLayer ctx f, genLayer ctx f] := by
  unfold resolveFallback bankLayer contextLayer genLayer
  dsimp only
  cases hst : truthy (getAnswer ctx.bank f.label ctx.company) <;>
    cases havail : ctx.llmAvailable <;>
      cases hcm : truthy (ctx.llmContextMatch f.label ctx.bank) <;>
        (simp [hst, havail, hcm, chainLayers]
         try (split_ifs <;> simp [chainLayers]))

/-! ## Lemmas about the Answer Bank -/

lemma dictGet_dictPut (d : List (String × String)) (k v : String) :
    dictGet (dictPut d k v) k = some v := by
  unfold dictPut
  by_cases h : d.any (fun p => p.1 == k) = true
  · rw [if_pos h]
    induction d with
    | nil => cases h
    | cons p d ih =>
      by_cases hp : (p.1 == k) = true
      · have hpk : p.1 = k := by simpa using hp
        unfold dictGet
        simp [List.find?_cons, hpk]
      · have hpk : ¬(p.1 = k) := by simpa using hp
        have hpf : (p.1 == k) = false := by simpa using hp
        rw [List.any_cons, hpf] at h
        simp only [Bool.false_or] at h
        have hih := ih h
        have hstep :
            dictGet ((p :: d).map (fun q => if q.1 == k then (k, v) else q)) k
              = dictGet (d.map (fun q => if q.1 == k then (k, v) else q)) k := by
          unfold dictGet
          rw [List.map_cons]
          rw [List.find?_cons_of_neg]
          simp [hpk, hpf]
        rw [hstep]
        exact hih
  · rw [if_neg h]
    unfold dictGet
    rw [List.find?_append]
    have hnone : d.find? (fun p => p.1 == k) = none := by
      rw [List.find?_eq_none]
      intro x hx hxk
      exact h (List.any_eq_true.mpr ⟨x, hx, hxk⟩)
    simp [hnone]

lemma getAnswer_exact_hit {bank : Bank} {q : String} {a : String}
    (h : dictGet bank.exact (normalizeQuestion q) = some a) :
    ∀ c, getAnswer bank q c = some a := by
  intro c
  unfold getAnswer getAnswerS
  simp only [h]

/-- Behaviour of the fuzzy fold from an arbitrary start state: either nothing
beats the running best and the state is unchanged, or some entry beating it
wins with the maximal ratio. -/
lemma fuzzyFold_spec (nq : String) :
    ∀ (l : List (String × String)) (r0 : ℚ) (m0 : Option String),
      (l.foldl
          (fun best p =>
            let r := simScore nq.data p.1.data
            if r > best.1 then (r, some p.2) else best)
          (r0, m0) = (r0, m0) ∧ ∀ p ∈ l, simScore nq.data p.1.data ≤ r0) ∨
      (∃ p ∈ l,
        l.foldl
            (fun best p =>
              let r := simScore nq.data p.1.data
              if r > best.1 then (r, some p.2) else best)
            (r0, m0) = (simScore nq.data p.1.data, some p.2) ∧
        simScore nq.data p.1.data > r0 ∧
        ∀ p2 ∈ l, simScore nq.data p2.1.data ≤ simScore nq.data p.1.data) := by
  intro l
  induction l with
  | nil => intro r0 m0; left; exact ⟨rfl, by intro p hp; cases hp⟩
  | cons p l ih =>
    intro r0 m0
    by_cases hbeat : simScore nq.data p.1.data > r0
    · rw [List.foldl_cons]
      simp only [if_pos hbeat]
      rcases ih (simScore nq.data p.1.data) (some p.2) with ⟨heq, hall⟩ | ⟨p2, hp2, heq, hgt, hall⟩
      · right
        refine ⟨p, List.mem_cons_self _ _, heq, hbeat, ?_⟩
        intro p2 hp2
        rcases List.mem_cons.mp hp2 with rfl | hp2
        · exact le_refl _
        · exact hall p2 hp2
      · right
        refine ⟨p2, List.mem_cons_of_mem _ hp2, heq, lt_trans hbeat hgt, ?_⟩
        intro p3 hp3
        rcases List.mem_cons.mp hp3 with rfl | hp3
        · exact le_of_lt hgt
        · exact hall p3 hp3
    · rw [List.foldl_cons]
      simp only [if_neg hbeat]
      rcases ih r0 m0 with ⟨heq, hall⟩ | ⟨p2, hp2, heq, hgt, hall⟩
      · left
        refine ⟨heq, ?_⟩
        intro p2 hp2
        rcases List.mem_cons.mp hp2 with rfl | hp2
        · exact le_of_not_lt hbeat
        · exact hall p2 hp2
      · right
        refine ⟨p2, List.mem_cons_of_mem _ hp2, heq, hgt, ?_⟩
        intro p3 hp3
        rcases List.mem_cons.mp hp3 with rfl | hp3
        · exact le_trans (le_of_not_lt hbeat) (le_of_lt hgt)
        · exact hall p3 hp3

lemma fuzzyLookup_none {exact : List (String × String)} {nq : String}
    (h : ∀ p ∈ exact, simScore nq.data p.1.data ≤ simFloor) :
    fuzzyLookup exact nq = none := by
  unfold fuzzyLookup
  rcases fuzzyFold_spec nq exact simFloor none with ⟨heq, _⟩ | ⟨p, hp, _, hgt, _⟩
  · rw [heq]
  · exact absurd (h p hp) (not_le_of_lt hgt)

lemma fuzzyLookup_some {exact : List (String × String)} {nq : String} {a : String}
    (h : fuzzyLookup exact nq = some a) :
    ∃ p ∈ exact, p.2 = a ∧ simScore nq.data p.1.data > simFloor ∧
      ∀ p2 ∈ exact, simScore nq.data p2.1.data ≤ simScore nq.data p.1.data := by
  unfold fuzzyLookup at h
  rcases fuzzyFold_spec nq exact simFloor none with ⟨heq, _⟩ | ⟨p, hp, heq, hgt, hall⟩
  · rw [heq] at h; cases h
  · rw [heq] at h
    exact ⟨p, hp, Option.some.inj h, hgt, hall⟩

lemma fuzzyLookup_isSome {exact : List (String × String)} {nq : String}
    (h : ∃ p ∈ exact, simScore nq.data p.1.data > simFloor) :
    ∃ a, fuzzyLookup exact nq = some a := by
  obtain ⟨p, hp, hgt⟩ := h
  cases hf : fuzzyLookup exact nq with
  | some a => exact ⟨a, rfl⟩
  | none =>
    exfalso
    unfold fuzzyLookup at hf
    rcases fuzzyFold_spec nq exact simFloor none with ⟨heq, hall⟩ | ⟨p2, hp2, heq, hgt2, _⟩
    · exact absurd (hall p hp) (not_le_of_lt hgt)
    · rw [heq] at hf; cases hf

/-! ## Lemmas about the fill loop -/

lemma truthy_iff (o : Option String) :
    truthy o = true ↔ ∃ s, o = some s ∧ s ≠ "" := by
  cases o with
  | none => simp [truthy]
  | some s => simp [truthy]

lemma processField_skipped {ctx : LoopCtx} {f : Field}
    (hint : ctx.interactive = false) (hr : truthy (ctx.resolve f) = false) :
    processField ctx f = (Outcome.skipped, []) := by
  unfold processField
  simp [hint, hr]

lemma processField_writes (ctx : LoopCtx) (g : Field) :
    ∀ v ∈ (processField ctx g).2, v ≠ "" := by
  intro v hv
  unfold processField at hv
  set w := (if !truthy (ctx.resolve g) && ctx.interactive && ctx.elementFound g then
      ctx.askUser g else ctx.resolve g) with hw
  by_cases ht : truthy w = true
  · obtain ⟨s, hs, hne⟩ := (truthy_iff w).mp ht
    simp only [if_pos ht] at hv
    by_cases hfo : ctx.fillOk g (w.getD "") = true
    · simp only [if_pos hfo] at hv
      have hvs : v = w.getD "" := by
        simp only [List.mem_singleton] at hv
        exact hv
      rw [hvs, hs]
      simpa using hne
    · simp only [if_neg hfo] at hv
      have hvs : v = w.getD "" := by
        simp only [List.mem_singleton] at hv
        exact hv
      rw [hvs, hs]
      simpa using hne
  · simp only [if_neg ht] at hv
    cases hv

/-! ## Claim theorems -/

/-- C2, counterexample: `normalize_question` is not idempotent, and two
questions differing only in punctuation need not share a key.  On `"a!"` the
first pass turns the trailing `!` into a trailing space, which only the
second pass strips: `normalize("a!") = "a "` but `normalize("a ") = "a"`, and
`"a"` (differing from `"a!"` only in punctuation) normalizes to `"a"`. -/
theorem claim_C2_counterexample :
    ¬(normalizeQuestion (normalizeQuestion "a!") = normalizeQuestion "a!") ∧
    ¬(normalizeQuestion "a" = normalizeQuestion "a!") := by decide

/-- C2, amended: a second normalization pass strips the boundary whitespace
the first pass can leave behind (so `normalize ∘ normalize = strip ∘
normalize`, and normalization is idempotent exactly on questions whose
normal form carries no boundary space), and normalization is
case-insensitive: a question and its lowercasing share a key. -/
theorem claim_C2_normalize (q : String) :
    normalizeQuestion (normalizeQuestion q) = pyStripStr (normalizeQuestion q) ∧
    normalizeQuestion (pyLowerStr q) = normalizeQuestion q :=
  ⟨normalizeQuestion_second_pass q, normalizeQuestion_lower q⟩

/-- C3, counterexample: the resolver short-circuits on a profile *trigger
match*, not on success.  For a text field labelled "first name" with an empty
profile first name, the resolver yields the untruthy `some ""` — signalling
no value — even though the Answer Bank holds a stored answer for exactly
that question, so the bank layer is never consulted. -/
theorem claim_C3_counterexample :
    truthy (getValueForField
      ⟨⟨"", "", "", "", "", "", "", "", "", ""⟩,
        storeAnswer emptyBank "first name" "Ada" none false,
        none, false, fun _ _ => none, fun _ _ _ => none, "", []⟩
      ⟨FieldType.text, "first name", ""⟩) = false ∧
    getAnswer (storeAnswer emptyBank "first name" "Ada" none false) "first name" none
      = some "Ada" := by decide

/-- C3, amended: the resolver is exactly the layered chain evaluated top to
bottom with short-circuit on the first *trigger match* (a matched profile
trigger returns the mapped profile value even when that value is empty; a
file field with no resume path stops the chain with no value): direct
profile mapping, then for select fields the Answer Bank shortcut, then the
general Answer Bank lookup, then the LLM semantic match over the bank, then
LLM generation from the resume (option texts passed for selects), and
unknown only when every layer passes. -/
theorem claim_C3_resolver_chain (ctx : ResolverCtx) (f : Field) :
    getValueForField ctx f = resolveLayered ctx f := by
  unfold getValueForField resolveLayered profileLayer selectBankLayer
  rw [resolveFallback_eq]
  generalize ((⟨pyLower f.label.data⟩ ++ " " ++ ⟨pyLower f.name.data⟩ : String)) = comb
  by_cases c1 : (strContains comb "first" || strContains comb "fname") = true
  · rw [if_pos c1, if_pos c1]; simp only [chainLayers]
  rw [if_neg c1, if_neg c1]
  by_cases c2 : (strContains comb "last" || strContains comb "lname") = true
  · rw [if_pos c2, if_pos c2]; simp only [chainLayers]
  rw [if_neg c2, if_neg c2]
  by_cases c3 : (strContains comb "full" && strContains comb "name") = true
  · rw [if_pos c3, if_pos c3]; simp only [chainLayers]
  rw [if_neg c3, if_neg c3]
  by_cases c4 : (f.fieldType == FieldType.email || strContains comb "email") = true
  · rw [if_pos c4, if_pos c4]; simp only [chainLayers]
  rw [if_neg c4, if_neg c4]
  by_cases c5 : (f.fieldType == FieldType.phone || strContains comb "phone") = true
  · rw [if_pos c5, if_pos c5]; simp only [chainLayers]
  rw [if_neg c5, if_neg c5]
  by_cases c6 : strContains comb "linkedin" = true
  · rw [if_pos c6, if_pos c6]; simp only [chainLayers]
  rw [if_neg c6, if_neg c6]
  by_cases c7 : strContains comb "github" = true
  · rw [if_pos c7, if_pos c7]; simp only [chainLayers]
  rw [if_neg c7, if_neg c7]
  by_cases c8 : ((strContains comb "website" || strContains comb "portfolio" ||
      strContains comb "personal") && decide (comb.length < 20)) = true
  · rw [if_pos c8, if_pos c8]; simp only [chainLayers]
  rw [if_neg c8, if_neg c8]
  by_cases c9 : (f.fieldType == FieldType.file) = true
  · rw [if_pos c9, if_pos c9]; simp only [chainLayers]
  rw [if_neg c9, if_neg c9]
  by_cases c10 : (f.fieldType == FieldType.textarea) = true
  · rw [if_pos c10, if_pos c10]
    have hft : f.fieldType = FieldType.textarea := by simpa using c10
    have hsel : (f.fieldType == FieldType.select) = false := by rw [hft]; decide
    by_cases c10a : (strContains comb "cover" || strContains comb "letter" ||
        strContains comb "why" || strContains comb "interest") = true
    · rw [if_pos c10a, if_pos c10a]; simp only [chainLayers]
    · rw [if_neg c10a, if_neg c10a]; simp [hsel, chainLayers]
  rw [if_neg c10, if_neg c10]
  by_cases c11 : (f.fieldType == FieldType.select) = true
  · rw [if_pos c11, if_pos c11]
    by_cases c11a : truthy (getAnswer ctx.bank f.label ctx.company) = true
    · rw [if_pos c11a, if_pos c11a]; simp only [chainLayers]
    · rw [if_neg c11a, if_neg c11a]; simp only [chainLayers]
  · rw [if_neg c11, if_neg c11]; simp only [chainLayers]

/-- C4: `get_answer` consults its layers in order and returns the first hit —
exact match on the normalized question first; else the pattern layer under
the regex classification key; else the company-scoped custom layer (which is
never consulted without a company: with `company = none` it yields nothing);
else the fuzzy layer, which returns `none` when every stored exact entry has
similarity at or below the 0.7 floor, and otherwise returns an answer whose
similarity strictly exceeds the floor and is maximal among all stored
entries; some answer is returned whenever any entry strictly exceeds the
floor.  In particular similarity 0.69 cannot match while 0.71 must. -/
theorem claim_C4_get_answer_layers (b : Bank) (q : String) (c : Option String) :
    (∀ a, dictGet b.exact (normalizeQuestion q) = some a → getAnswer b q c = some a)
    ∧ (dictGet b.exact (normalizeQuestion q) = none →
        ∀ a, (getPatternKey q).bind (fun pk => dictGet b.patterns pk) = some a →
          getAnswer b q c = some a)
    ∧ (dictGet b.exact (normalizeQuestion q) = none →
        (getPatternKey q).bind (fun pk => dictGet b.patterns pk) = none →
        ∀ a, customLookup b (normalizeQuestion q) c = some a → getAnswer b q c = some a)
    ∧ (customLookup b (normalizeQuestion q) none = none)
    ∧ (dictGet b.exact (normalizeQuestion q) = none →
        (getPatternKey q).bind (fun pk => dictGet b.patterns pk) = none →
        customLookup b (normalizeQuestion q) c = none →
        getAnswer b q c = fuzzyLookup b.exact (normalizeQuestion q))
    ∧ ((∀ p ∈ b.exact, simScore (normalizeQuestion q).data p.1.data ≤ simFloor) →
        fuzzyLookup b.exact (normalizeQuestion q) = none)
    ∧ (∀ a, fuzzyLookup b.exact (normalizeQuestion q) = some a →
        ∃ p ∈ b.exact, p.2 = a ∧ simScore (normalizeQuestion q).data p.1.data > simFloor ∧
          ∀ p2 ∈ b.exact,
            simScore (normalizeQuestion q).data p2.1.data
              ≤ simScore (normalizeQuestion q).data p.1.data)
    ∧ ((∃ p ∈ b.exact, simScore (normalizeQuestion q).data p.1.data > simFloor) →
        ∃ a, fuzzyLookup b.exact (normalizeQuestion q) = some a) := by
  refine ⟨?_, ?_, ?_, ?_, ?_, ?_, ?_, ?_⟩
  · intro a h; exact getAnswer_exact_hit h c
  · intro h1 a h2; unfold getAnswer getAnswerS; simp only [h1, h2]
  · intro h1 h2 a h3; unfold getAnswer getAnswerS; simp only [h1, h2, h3]
  · rfl
  · intro h1 h2 h3; unfold getAnswer getAnswerS; simp only [h1, h2, h3]
  · exact fuzzyLookup_none
  · intro a h; exact fuzzyLookup_some h
  · exact fuzzyLookup_isSome

set_option maxRecDepth 8000 in
/-- C4, witness: a bank holding only "pet name" → "Rex"; the query
"pets name" misses the exact, pattern and custom layers and beats the 0.7
fuzzy floor, so `get_answer` resolves through the fuzzy layer. -/
theorem claim_C4_witness :
    getAnswer ⟨[("pet name", "Rex")], [], []⟩ "pets name" none
        = fuzzyLookup [("pet name", "Rex")] (normalizeQuestion "pets name") ∧
    (∃ a, fuzzyLookup [("pet name", "Rex")] (normalizeQuestion "pets name") = some a) := by
  have h := claim_C4_get_answer_layers ⟨[("pet name", "Rex")], [], []⟩ "pets name" none
  refine ⟨h.2.2.2.2.1 (by decide) (by decide) (by decide), h.2.2.2.2.2.2.2 ?_⟩
  exact ⟨("pet name", "Rex"), by decide, by decide⟩

/-- C8: after `store_answer(question, answer)` with no company and
`is_pattern` false, the stored answer sits in the `exact` layer under the
normalized question, and `get_answer(question)` returns it from that first
layer (so no fallback layer is consulted). -/
theorem claim_C8_store_roundtrip (b : Bank) (q a : String) :
    dictGet (storeAnswer b q a none false).exact (normalizeQuestion q) = some a ∧
    getAnswer (storeAnswer b q a none false) q none = some a := by
  have h1 : dictGet (storeAnswer b q a none false).exact (normalizeQuestion q) = some a := by
    show dictGet (dictPut b.exact (normalizeQuestion q) a) (normalizeQuestion q) = some a
    exact dictGet_dictPut b.exact (normalizeQuestion q) a
  exact ⟨h1, getAnswer_exact_hit h1 none⟩

/-- C10: `get_answer` is a pure lookup — in the state-passing transcription
every path hands back the input bank unchanged, whatever question or company
is supplied; only `store_answer` produces a different bank. -/
theorem claim_C10_get_answer_pure (b : Bank) (q : String) (c : Option String) :
    (getAnswerS b q c).2 = b := by
  unfold getAnswerS
  cases h1 : dictGet b.exact (normalizeQuestion q) with
  | some a => simp [h1]
  | none =>
    simp only [h1]
    cases h2 : (getPatternKey q).bind (fun pk => dictGet b.patterns pk) with
    | some a => simp [h2]
    | none =>
      simp only [h2]
      cases h3 : customLookup b (normalizeQuestion q) c with
      | some a => simp [h3]
      | none => simp [h3]

set_option maxRecDepth 8000 in
/-- C1, counterexample: an operator answer to an escalated dropdown is
stored *company-scoped* when a company is set for the run.  After the
operator picks "Yes" for Acme, the very same question asked by Globex gets
`none` from `get_answer` — the exact and pattern layers never see escalated
answers stored under a company — so the operator is asked again, contrary to
the claim. -/
theorem claim_C1_counterexample :
    (askUserSelect emptyBank "Do you enjoy teamwork?" (some "Acme")
        [⟨"Yes", "Yes"⟩] 0).2 = some "Yes" ∧
    getAnswer (askUserSelect emptyBank "Do you enjoy teamwork?" (some "Acme")
        [⟨"Yes", "Yes"⟩] 0).1 "Do you enjoy teamwork?" (some "Globex") = none := by
  decide

/-- C1, amended: an escalated dropdown answer is stored in the Answer Bank
before being returned and filled; when *no company* is set it lands in the
exact layer, and a later run — under any company — resolves the same
question from that exact layer without re-asking.  (When a company is set
the answer is stored company-scoped instead, and a different company is
re-asked.)  An escalated free-text answer is stored the same way but, by the
function-level `return None`, is never handed back to the current fill. -/
theorem claim_C1_escalation_store (bank : Bank) (label : String)
    (options : List SelectOption) (choice : Nat) (o : SelectOption)
    (ho : options[choice]? = some o) :
    askUserSelect bank label none options choice
        = (storeAnswer bank label o.value none false, some o.value)
    ∧ (∀ c2, getAnswer (storeAnswer bank label o.value none false) label c2 = some o.value)
    ∧ (∀ comp reply, (⟨pyStrip reply.data⟩ : String) ≠ "" →
        (⟨pyLower (pyStrip reply.data)⟩ : String) ≠ "s" →
        askUserText bank label comp reply
          = (storeAnswer bank label ⟨pyStrip reply.data⟩ comp false, none)) := by
  refine ⟨?_, ?_, ?_⟩
  · unfold askUserSelect
    rw [ho]
  · have h1 : dictGet (storeAnswer bank label o.value none false).exact
        (normalizeQuestion label) = some o.value := by
      show dictGet (dictPut bank.exact (normalizeQuestion label) o.value)
        (normalizeQuestion label) = some o.value
      exact dictGet_dictPut bank.exact (normalizeQuestion label) o.value
    exact fun c2 => getAnswer_exact_hit h1 c2
  · intro comp reply h1 h2
    unfold askUserText
    rw [if_neg (by simpa using h2), if_pos (by simpa using h1)]

/-- C1, witness: with no company set, the escalated "Yes" for a dropdown is
stored and returned, a later run by Globex resolves it from the exact layer,
and an escalated text reply "5 years" is stored but not handed back. -/
theorem claim_C1_witness :
    askUserSelect emptyBank "Do you enjoy teamwork?" none [⟨"Yes", "Yes"⟩] 0
        = (storeAnswer emptyBank "Do you enjoy teamwork?" "Yes" none false, some "Yes")
    ∧ getAnswer (storeAnswer emptyBank "Do you enjoy teamwork?" "Yes" none false)
        "Do you enjoy teamwork?" (some "Globex") = some "Yes"
    ∧ askUserText emptyBank "Do you enjoy teamwork?" (some "Acme") "5 years"
        = (storeAnswer emptyBank "Do you enjoy teamwork?" "5 years" (some "Acme") false,
           none) := by
  have h := claim_C1_escalation_store emptyBank "Do you enjoy teamwork?"
    [⟨"Yes", "Yes"⟩] 0 ⟨"Yes", "Yes"⟩ rfl
  exact ⟨h.1, h.2.1 (some "Globex"),
    h.2.2 (some "Acme") "5 years" (by decide) (by decide)⟩

/-- C5: filling a select either commits an offered option or changes
nothing — on failure the original selection is untouched; on success the new
selection is one of the offered option values; an exact value match is taken
first; otherwise the first option whose lowercased text or value contains
the lowercased fill value is selected; and when nothing matches the fill
reports failure. -/
theorem claim_C5_select_fill (options : List SelectOption) (current : Option String)
    (value : String) :
    ((selectFill options current value).1 = false →
        (selectFill options current value).2 = current)
    ∧ ((selectFill options current value).1 = true →
        ∃ o ∈ options, (selectFill options current value).2 = some o.value)
    ∧ (options.any (fun o => o.value == value) = true →
        selectFill options current value = (true, some value))
    ∧ (options.any (fun o => o.value == value) = false →
        ∀ o, options.find? (optionMatches value) = some o →
          selectFill options current value = (true, some o.value))
    ∧ (options.any (fun o => o.value == value) = false →
        options.find? (optionMatches value) = none →
        selectFill options current value = (false, current)) := by
  by_cases hx : options.any (fun o => o.value == value) = true
  · obtain ⟨o, ho, hov⟩ := List.any_eq_true.mp hx
    have hoval : o.value = value := by simpa using hov
    have hres : selectFill options current value = (true, some value) := by
      unfold selectFill; rw [if_pos hx]
    refine ⟨?_, ?_, ?_, ?_, ?_⟩
    · intro h; rw [hres] at h; cases h
    · intro _; refine ⟨o, ho, ?_⟩; rw [hres, hoval]
    · intro _; exact hres
    · intro hf; rw [hf] at hx; cases hx
    · intro hf; rw [hf] at hx; cases hx
  · have hxf : options.any (fun o => o.value == value) = false := by simpa using hx
    cases hfind : options.find? (optionMatches value) with
    | some o =>
      have hres : selectFill options current value = (true, some o.value) := by
        unfold selectFill; rw [if_neg hx, hfind]
      refine ⟨?_, ?_, ?_, ?_, ?_⟩
      · intro h; rw [hres] at h; cases h
      · intro _; exact ⟨o, List.mem_of_find?_eq_some hfind, by rw [hres]⟩
      · intro ht; rw [ht] at hxf; cases hxf
      · intro _ o2 ho2; cases ho2; exact hres
      · intro _ hnone; cases hnone
    | none =>
      have hres : selectFill options current value = (false, current) := by
        unfold selectFill; rw [if_neg hx, hfind]
      refine ⟨?_, ?_, ?_, ?_, ?_⟩
      · intro _; rw [hres]
      · intro h; rw [hres] at h; cases h
      · intro ht; rw [ht] at hxf; cases hxf
      · intro _ o2 ho2; cases ho2
      · intro _ _; exact hres

/-- C5, witness: with options yes/no and current selection "no", the fill
value "Yes" misses the exact value scan but substring-matches the first
option's text and commits it; the value "Maybe" matches nothing, the fill
fails, and the selection stays "no". -/
theorem claim_C5_witness :
    selectFill [⟨"yes", "Yes"⟩, ⟨"no", "No"⟩] (some "no") "Yes" = (true, some "yes") ∧
    selectFill [⟨"yes", "Yes"⟩, ⟨"no", "No"⟩] (some "no") "Maybe" = (false, some "no") := by
  have h1 := claim_C5_select_fill [⟨"yes", "Yes"⟩, ⟨"no", "No"⟩] (some "no") "Yes"
  have h2 := claim_C5_select_fill [⟨"yes", "Yes"⟩, ⟨"no", "No"⟩] (some "no") "Maybe"
  exact ⟨h1.2.2.2.1 (by decide) ⟨"yes", "Yes"⟩ (by decide),
    h2.2.2.2.2 (by decide) (by decide)⟩

/-- C6: the checkbox arm is idempotent — repeating the fill leaves the
state where the first fill put it and performs no second action — and a
check action happens exactly when the box was not already checked, so an
already-checked box is never toggled. -/
theorem claim_C6_checkbox_idempotent (checked : Bool) :
    (checkboxFill ((checkboxFill checked).1)).1 = (checkboxFill checked).1
    ∧ (checkboxFill ((checkboxFill checked).1)).2 = false
    ∧ ((checkboxFill checked).2 = true ↔ checked = false) := by
  cases checked <;> decide

/-- C7: selector synthesis tries its strategies in the fixed priority id →
name → preferred (automation/test-id-style) data attribute → any data
attribute → aria-label → placeholder → non-default autocomplete →
structural ancestor path, stopping at the first success; and for an element
carrying an id or a name the result is never the empty selector. -/
theorem claim_C7_selector_priority (el : DomElement)
    (idAttr nameAttr placeholder tagName : String) :
    (idAttr ≠ "" →
        buildSelector el idAttr nameAttr placeholder tagName = "#" ++ idAttr)
    ∧ (idAttr = "" → nameAttr ≠ "" →
        buildSelector el idAttr nameAttr placeholder tagName
          = "[name=\"" ++ nameAttr ++ "\"]")
    ∧ (idAttr = "" → nameAttr = "" → ∀ p, preferredDataAttr el = some p →
        buildSelector el idAttr nameAttr placeholder tagName
          = "[" ++ p.1 ++ "=\"" ++ p.2 ++ "\"]")
    ∧ (idAttr = "" → nameAttr = "" → preferredDataAttr el = none →
        ∀ p, (dataAttrsOf el).head? = some p →
        buildSelector el idAttr nameAttr placeholder tagName
          = "[" ++ p.1 ++ "=\"" ++ p.2 ++ "\"]")
    ∧ (idAttr = "" → nameAttr = "" → preferredDataAttr el = none →
        (dataAttrsOf el).head? = none → el.ariaLabel ≠ "" →
        buildSelector el idAttr nameAttr placeholder tagName
          = "[aria-label=\"" ++ escapeQuotes el.ariaLabel ++ "\"]")
    ∧ (idAttr = "" → nameAttr = "" → preferredDataAttr el = none →
        (dataAttrsOf el).head? = none → el.ariaLabel = "" → placeholder ≠ "" →
        buildSelector el idAttr nameAttr placeholder tagName
          = "[placeholder=\"" ++ escapeQuotes placeholder ++ "\"]")
    ∧ (idAttr = "" → nameAttr = "" → preferredDataAttr el = none →
        (dataAttrsOf el).head? = none → el.ariaLabel = "" → placeholder = "" →
        el.autocomplete ≠ "" → el.autocomplete ≠ "off" → el.autocomplete ≠ "on" →
        buildSelector el idAttr nameAttr placeholder tagName
          = tagName ++ "[autocomplete=\"" ++ el.autocomplete ++ "\"]")
    ∧ (idAttr = "" → nameAttr = "" → preferredDataAttr el = none →
        (dataAttrsOf el).head? = none → el.ariaLabel = "" → placeholder = "" →
        (el.autocomplete != "" && el.autocomplete != "off" && el.autocomplete != "on")
            = false →
        buildSelector el idAttr nameAttr placeholder tagName = el.structPath)
    ∧ ((idAttr ≠ "" ∨ nameAttr ≠ "") →
        buildSelector el idAttr nameAttr placeholder tagName ≠ "") := by
  refine ⟨?_, ?_, ?_, ?_, ?_, ?_, ?_, ?_, ?_⟩
  · intro h1
    unfold buildSelector
    rw [if_pos (by simpa using h1)]
  · intro h1 h2
    unfold buildSelector
    rw [if_neg (by simpa using h1), if_pos (by simpa using h2)]
  · intro h1 h2 p hp
    unfold buildSelector
    rw [if_neg (by simpa using h1), if_neg (by simpa using h2), hp]
  · intro h1 h2 h3 p hp
    unfold buildSelector
    rw [if_neg (by simpa using h1), if_neg (by simpa using h2), h3, hp]
  · intro h1 h2 h3 h4 h5
    unfold buildSelector
    rw [if_neg (by simpa using h1), if_neg (by simpa using h2), h3, h4,
      if_pos (by simpa using h5)]
  · intro h1 h2 h3 h4 h5 h6
    unfold buildSelector
    rw [if_neg (by simpa using h1), if_neg (by simpa using h2), h3, h4,
      if_neg (by simp [h5]), if_pos (by simpa using h6)]
  · intro h1 h2 h3 h4 h5 h6 h7 h8 h9
    unfold buildSelector
    rw [if_neg (by simpa using h1), if_neg (by simpa using h2), h3, h4,
      if_neg (by simp [h5]), if_neg (by simp [h6]),
      if_pos (by simp [h7, h8, h9])]
  · intro h1 h2 h3 h4 h5 h6 h7
    unfold buildSelector
    rw [if_neg (by simpa using h1), if_neg (by simpa using h2), h3, h4,
      if_neg (by simp [h5]), if_neg (by simp [h6]), if_neg (by simp [h7])]
  · intro h
    by_cases hid : idAttr = ""
    · have hname : nameAttr ≠ "" := by
        rcases h with h | h
        · exact absurd hid h
        · exact h
      unfold buildSelector
      rw [if_neg (by simpa using hid), if_pos (by simpa using hname)]
      intro habs
      have hlen := congrArg String.length habs
      rw [String.length_append, String.length_append] at hlen
      have hlen2 : 7 + nameAttr.length + 2 = 0 := hlen
      omega
    · unfold buildSelector
      rw [if_pos (by simpa using hid)]
      intro habs
      have hlen := congrArg String.length habs
      rw [String.length_append] at hlen
      have hlen2 : 1 + idAttr.length = 0 := hlen
      omega

/-- C7, witness: an element with only a `data-testid` attribute takes the
preferred-data-attribute strategy; an element with an id takes the id
strategy and its selector is non-empty. -/
theorem claim_C7_witness :
    buildSelector ⟨[("data-testid", "submit-btn")], "", "", "", ""⟩ "" "" "" "input"
        = "[data-testid=\"submit-btn\"]"
    ∧ buildSelector ⟨[], "", "", "", ""⟩ "email" "" "" "input" = "#email"
    ∧ buildSelector ⟨[], "", "", "", ""⟩ "email" "" "" "input" ≠ "" := by
  have h1 := claim_C7_selector_priority
    ⟨[("data-testid", "submit-btn")], "", "", "", ""⟩ "" "" "" "input"
  have h2 := claim_C7_selector_priority ⟨[], "", "", "", ""⟩ "email" "" "" "input"
  exact ⟨h1.2.2.1 rfl rfl ("data-testid", "submit-btn") (by decide),
    h2.1 (by decide), h2.2.2.2.2.2.2.2.2 (Or.inl (by decide))⟩

/-- C9: in a non-interactive run, every detected field whose resolved value
is falsy (no stored answer, no profile mapping, no LLM) is skipped: its
iteration is the skipped outcome with no write, it is recorded in the
unfilled-fields list, nothing — in particular no empty string — is ever
written to the page for it, every value that is written for any field is
non-empty, the filled count tallies exactly the fields whose iteration
succeeded (so the skipped field is not counted), its `filled` flag stays
false, and the success rate is the filled count over the total. -/
theorem claim_C9_unresolved_skipped (ctx : LoopCtx) (fields : List Field)
    (f : Field) (hint : ctx.interactive = false) (hf : f ∈ fields)
    (hr : truthy (ctx.resolve f) = false) :
    processField ctx f = (Outcome.skipped, [])
    ∧ f ∈ (fillFormRun ctx fields).unfilled
    ∧ (∀ v, (f, v) ∉ (fillFormRun ctx fields).writes)
    ∧ (∀ w ∈ (fillFormRun ctx fields).writes, w.2 ≠ "")
    ∧ (fillFormRun ctx fields).filledCount
        = (fields.filter (fun g => (processField ctx g).1 == Outcome.filledOk)).length
    ∧ ((fun g => (processField ctx g).1 == Outcome.filledOk) f) = false
    ∧ (∀ i : Nat, fields[i]? = some f → (fillFormRun ctx fields).filledFlags[i]? = some false)
    ∧ (fillFormRun ctx fields).successRate
        = (if fields.length == 0 then 0
           else mkRat (fillFormRun ctx fields).filledCount fields.length) := by
  have hskip : processField ctx f = (Outcome.skipped, []) :=
    processField_skipped hint hr
  refine ⟨hskip, ?_, ?_, ?_, ?_, ?_, ?_, ?_⟩
  · unfold fillFormRun
    dsimp only
    apply List.mem_map.mpr
    refine ⟨(f, processField ctx f), ?_, rfl⟩
    apply List.mem_filter.mpr
    refine ⟨List.mem_map_of_mem _ hf, ?_⟩
    rw [hskip]
    rfl
  · intro v hv
    unfold fillFormRun at hv
    dsimp only at hv
    obtain ⟨p, hp, hv2⟩ := List.mem_flatMap.mp hv
    obtain ⟨g, hg, rfl⟩ := List.mem_map.mp hp
    obtain ⟨v2, hv2mem, hv2eq⟩ := List.mem_map.mp hv2
    have hgf : g = f := congrArg Prod.fst hv2eq
    rw [hgf, hskip] at hv2mem
    cases hv2mem
  · intro w hw
    unfold fillFormRun at hw
    dsimp only at hw
    obtain ⟨p, hp, hw2⟩ := List.mem_flatMap.mp hw
    obtain ⟨g, hg, rfl⟩ := List.mem_map.mp hp
    obtain ⟨v2, hv2mem, hv2eq⟩ := List.mem_map.mp hw2
    have hwv : w.2 = v2 := by rw [← hv2eq]
    rw [hwv]
    exact processField_writes ctx g v2 hv2mem
  · unfold fillFormRun
    dsimp only
    rw [List.filter_map, List.length_map]
    rfl
  · show ((processField ctx f).1 == Outcome.filledOk) = false
    rw [hskip]
    rfl
  · intro i hi
    have hflags : (fillFormRun ctx fields).filledFlags
        = fields.map (fun g => (processField ctx g).1 == Outcome.filledOk) := by
      unfold fillFormRun
      dsimp only
      rw [List.map_map]
      rfl
    rw [hflags, List.getElem?_map, hi]
    simp [hskip]
  · rfl

/-- C9, witness: a one-field form whose resolver yields nothing in a
non-interactive run — the field is skipped and unfilled, nothing is written,
and the success rate is the zero filled count over the total. -/
theorem claim_C9_witness :
    processField
        ⟨fun _ => none, false, fun _ => true, fun _ => some "x", fun _ _ => true⟩
        ⟨FieldType.text, "quirky question", ""⟩ = (Outcome.skipped, [])
    ∧ (⟨FieldType.text, "quirky question", ""⟩ : Field) ∈
        (fillFormRun
          ⟨fun _ => none, false, fun _ => true, fun _ => some "x", fun _ _ => true⟩
          [⟨FieldType.text, "quirky question", ""⟩]).unfilled
    ∧ (∀ v, (⟨FieldType.text, "quirky question", ""⟩, v) ∉
        (fillFormRun
          ⟨fun _ => none, false, fun _ => true, fun _ => some "x", fun _ _ => true⟩
          [⟨FieldType.text, "quirky question", ""⟩]).writes) := by
  have h := claim_C9_unresolved_skipped
    ⟨fun _ => none, false, fun _ => true, fun _ => some "x", fun _ _ => true⟩
    [⟨FieldType.text, "quirky question", ""⟩]
    ⟨FieldType.text, "quirky question", ""⟩
    rfl (List.mem_singleton_self _) rfl
  exact ⟨h.1, h.2.1, h.2.2.1⟩

end Autofill
